import Mathlib

/-!
Verification of the case-attempt lifecycle of the OptoCase repository
(`src/routes/caseAttempts.js`): the `ensure`, `guardByCase` (GET
/case-attempts/by-case/:caseId), `save`, `complete` and `listForUser`
(GET /my-progress) operations over the `case_attempts` table.

The embedding models the database as an in-memory list of rows plus an
auto-increment counter.  SQL `NOW()` is modelled by an explicit `now`
parameter.  JavaScript truthiness of the optional request-body fields
(`lastPage || 'history'`, `pdfUrl || null`, `data || {}`, the
`COALESCE(?, last_page)` pattern fed with `lastPage || null`) is modelled
explicitly: `none` and `some ""` are falsy for optional strings, and a
small `JsVal` type with `JSON.stringify` carries the `data` payload.
-/

namespace OptoCase

/-- Attempt status: the `status` enum of `case_attempts`. -/
inductive Status where
  | IN_PROGRESS
  | COMPLETED
deriving DecidableEq, Repr

/-- A JavaScript value as it can appear in the `data` field of a request
body (after Express JSON parsing, plus `undef` for an absent field). -/
inductive JsVal where
  | undef
  | nullv
  | jbool (b : Bool)
  | jnum (n : Int)
  | jstr (s : String)
  | jobj (fields : List (String × JsVal))

/-- JavaScript truthiness of a `JsVal`. -/
def JsVal.truthy : JsVal → Bool
  | .undef => false
  | .nullv => false
  | .jbool b => b
  | .jnum n => n != 0
  | .jstr s => s != ""
  | .jobj _ => true

mutual

/-- `JSON.stringify` on a `JsVal` (objects only; enough for the routes,
which serialize `data || {}`). -/
def JsVal.stringify : JsVal → String
  | .undef => "undefined"
  | .nullv => "null"
  | .jbool b => if b then "true" else "false"
  | .jnum n => toString n
  | .jstr s => "\"" ++ s ++ "\""
  | .jobj fs => "\x7b" ++ JsVal.stringifyFields fs ++ "\x7d"

/-- Comma-separated `"key":value` serialization of an object's fields. -/
def JsVal.stringifyFields : List (String × JsVal) → String
  | [] => ""
  | [(k, v)] => "\"" ++ k ++ "\":" ++ JsVal.stringify v
  | (k, v) :: rest =>
      "\"" ++ k ++ "\":" ++ JsVal.stringify v ++ "," ++ JsVal.stringifyFields rest

end

/-- The JavaScript expression `data || \x7b\x7d`. -/
def jsOrEmptyObj (v : JsVal) : JsVal :=
  if v.truthy then v else .jobj []

/-- Truthiness of an optional string body field (absent and `""` are falsy). -/
def jsStrTruthy : Option String → Bool
  | none => false
  | some s => s != ""

/-- The JavaScript expression `x || null` on an optional string field. -/
def jsOrNull (v : Option String) : Option String :=
  if jsStrTruthy v then v else none

/-- The JavaScript expression `x || d` on an optional string field with a
string default (used for `lastPage || 'history'`). -/
def jsStrOr (v : Option String) (d : String) : String :=
  match v with
  | some s => if s == "" then d else s
  | none => d

/-- A row of the `case_attempts` table (the columns read and written by
`src/routes/caseAttempts.js`).  JSON columns are `Option String`: `none`
is SQL NULL, `some s` a serialized payload.  Timestamps are `Nat`. -/
structure Attempt where
  attempt_id : Nat
  case_id : Nat
  user_id : Nat
  status : Status
  last_page : String
  history_json : Option String
  exam_json : Option String
  assessment_json : Option String
  plan_json : Option String
  attachments_json : Option String
  pdf_url : Option String
  started_at : Nat
  updated_at : Nat
  completed_at : Option Nat
deriving DecidableEq, Repr

/-- The database: the `case_attempts` rows in table order plus the
auto-increment counter for `attempt_id`. -/
structure DB where
  rows : List Attempt
  nextId : Nat
deriving DecidableEq, Repr

/-- `SELECT * FROM case_attempts WHERE attempt_id=? AND user_id=?`,
returning `rows[0] || null` (helper `getAttemptByIdForUser`). -/
def getAttemptByIdForUser (db : DB) (attemptId userId : Nat) : Option Attempt :=
  db.rows.find? (fun a => a.attempt_id == attemptId && a.user_id == userId)

/-- `SELECT * FROM case_attempts WHERE case_id=? AND user_id=? LIMIT 1`,
returning `rows[0] || null` (helper `getAttemptByCaseForUser`). -/
def getAttemptByCaseForUser (db : DB) (caseId userId : Nat) : Option Attempt :=
  db.rows.find? (fun a => a.case_id == caseId && a.user_id == userId)

/-- `SELECT * FROM case_attempts WHERE attempt_id=?`, returning `rows[0]`
(the re-read after INSERT in the `ensure` route). -/
def getAttemptById (db : DB) (attemptId : Nat) : Option Attempt :=
  db.rows.find? (fun a => a.attempt_id == attemptId)

/-- `UPDATE case_attempts SET last_page=?, updated_at=NOW() WHERE attempt_id=?`
(the refresh of an existing IN_PROGRESS attempt inside `ensure`). -/
def updateLastPage (db : DB) (attemptId : Nat) (lp : String) (now : Nat) : DB :=
  { db with
    rows := db.rows.map (fun a =>
      if a.attempt_id == attemptId then
        { a with last_page := lp, updated_at := now }
      else a) }

/-- `INSERT INTO case_attempts (case_id, user_id, last_page, status)
VALUES (?,?,?,?)`.  Modelled from the spec: the `CREATE TABLE` schema for
`case_attempts` is not in `src/`, so the defaults of the unlisted columns
follow spec section 3 — `started_at` is set at row creation, `updated_at`
is bumped on every mutation, and the JSON, `pdf_url` and `completed_at`
columns start unset (NULL).  Returns the new row and the new database. -/
def insertAttempt (db : DB) (caseId userId : Nat) (lp : String) (st : Status)
    (now : Nat) : Attempt × DB :=
  let a : Attempt :=
    { attempt_id := db.nextId
      case_id := caseId
      user_id := userId
      status := st
      last_page := lp
      history_json := none
      exam_json := none
      assessment_json := none
      plan_json := none
      attachments_json := none
      pdf_url := none
      started_at := now
      updated_at := now
      completed_at := none }
  (a, { rows := db.rows ++ [a], nextId := db.nextId + 1 })

/-- Result of `POST /case-attempts/ensure`: 400 `MISSING_CASE_ID`,
403 `CASE_COMPLETED` (with the existing attempt in the payload), or
200 `\x7battempt\x7d` (the attempt re-read after insert may in principle
miss, hence `Option`). -/
inductive EnsureResult where
  | missingCaseId
  | caseCompleted (attempt : Attempt)
  | ok (attempt : Option Attempt)
deriving DecidableEq, Repr

/-- The attempt id carried by an `ensure` response, when one is. -/
def EnsureResult.attemptIdOf : EnsureResult → Option Nat
  | .missingCaseId => none
  | .caseCompleted a => some a.attempt_id
  | .ok (some a) => some a.attempt_id
  | .ok none => none

/-- `POST /case-attempts/ensure` (route 1 of `caseAttempts.js`): the body's
`caseId` is `none` when absent, and the JS `if (!caseId)` also catches a
literal `0`.  On an existing IN_PROGRESS attempt with a truthy `lastPage`,
the route updates the row and returns the stale object with its
`last_page` field patched in place (its `updated_at` is not refreshed in
the response). -/
def ensure (db : DB) (caseId : Option Nat) (userId : Nat)
    (lastPage : Option String) (now : Nat) : EnsureResult × DB :=
  match caseId with
  | none => (.missingCaseId, db)
  | some cid =>
    if cid == 0 then (.missingCaseId, db)
    else
      match getAttemptByCaseForUser db cid userId with
      | some existing =>
          if existing.status = Status.COMPLETED then
            (.caseCompleted existing, db)
          else
            match lastPage with
            | some lp =>
                if lp == "" then (.ok (some existing), db)
                else
                  let db1 := updateLastPage db existing.attempt_id lp now
                  (.ok (some { existing with last_page := lp }), db1)
            | none => (.ok (some existing), db)
      | none =>
          let lp := jsStrOr lastPage "history"
          let ins := insertAttempt db cid userId lp Status.IN_PROGRESS now
          (.ok (getAttemptById ins.2 db.nextId), ins.2)

/-- Result of `GET /case-attempts/by-case/:caseId`: 403 `CASE_COMPLETED`
or 200 with the attempt or `null`. -/
inductive GuardResult where
  | caseCompleted (attempt : Attempt)
  | ok (attempt : Option Attempt)
deriving DecidableEq, Repr

/-- `GET /case-attempts/by-case/:caseId` (route 1b): read-only guard. -/
def guardByCase (db : DB) (caseId userId : Nat) : GuardResult :=
  match getAttemptByCaseForUser db caseId userId with
  | some attempt =>
      if attempt.status = Status.COMPLETED then .caseCompleted attempt
      else .ok (some attempt)
  | none => .ok none

/-- The `colMap` object of the save route: section name to column name. -/
def colMap (sec : String) : Option String :=
  if sec == "history" then some "history_json"
  else if sec == "exam" then some "exam_json"
  else if sec == "assessment" then some "assessment_json"
  else if sec == "plan" then some "plan_json"
  else if sec == "attachments" then some "attachments_json"
  else none

/-- Write the JSON column named `col` (the interpolated `${col}=?` of the
save route's UPDATE). -/
def Attempt.setJsonCol (a : Attempt) (col : String) (v : String) : Attempt :=
  if col == "history_json" then { a with history_json := some v }
  else if col == "exam_json" then { a with exam_json := some v }
  else if col == "assessment_json" then { a with assessment_json := some v }
  else if col == "plan_json" then { a with plan_json := some v }
  else if col == "attachments_json" then { a with attachments_json := some v }
  else a

/-- Read the JSON column a section name maps to (readback view used to
state frame properties). -/
def Attempt.sectionJson (a : Attempt) (sec : String) : Option String :=
  if sec == "history" then a.history_json
  else if sec == "exam" then a.exam_json
  else if sec == "assessment" then a.assessment_json
  else if sec == "plan" then a.plan_json
  else if sec == "attachments" then a.attachments_json
  else none

/-- Result of `PUT /case-attempts/:attemptId/save`: 404 `NOT_FOUND`,
403 `CASE_COMPLETED`, 400 `BAD_SECTION`, or 200 `\x7bok:true\x7d`. -/
inductive SaveResult where
  | notFound
  | caseCompleted
  | badSection
  | ok
deriving DecidableEq, Repr

/-- `PUT /case-attempts/:attemptId/save` (route 2): ownership lookup, then
the COMPLETED guard, then section validation, then
`UPDATE case_attempts SET ${col}=?, last_page=COALESCE(?, last_page),
updated_at=NOW() WHERE attempt_id=? AND user_id=?` with parameters
`JSON.stringify(data || \x7b\x7d)` and `lastPage || null`. -/
def save (db : DB) (attemptId userId : Nat) (sec : String) (data : JsVal)
    (lastPage : Option String) (now : Nat) : SaveResult × DB :=
  match getAttemptByIdForUser db attemptId userId with
  | none => (.notFound, db)
  | some attempt =>
      if attempt.status = Status.COMPLETED then (.caseCompleted, db)
      else
        match colMap sec with
        | none => (.badSection, db)
        | some col =>
            let payload := (jsOrEmptyObj data).stringify
            let lpParam := jsOrNull lastPage
            let db1 : DB :=
              { db with
                rows := db.rows.map (fun a =>
                  if a.attempt_id == attemptId && a.user_id == userId then
                    { a.setJsonCol col payload with
                      last_page := lpParam.getD a.last_page
                      updated_at := now }
                  else a) }
            (.ok, db1)

/-- Result of `POST /case-attempts/:attemptId/complete`: 404 `NOT_FOUND`,
200 `\x7bok:true, alreadyCompleted:true\x7d`, or 200 `\x7bok:true\x7d`. -/
inductive CompleteResult where
  | notFound
  | okAlreadyCompleted
  | ok
deriving DecidableEq, Repr

/-- `POST /case-attempts/:attemptId/complete` (route 3): idempotence check,
then `UPDATE case_attempts SET status="COMPLETED", pdf_url=?,
completed_at=NOW(), updated_at=NOW() WHERE attempt_id=? AND user_id=?`
with parameter `pdfUrl || null`. -/
def complete (db : DB) (attemptId userId : Nat) (pdfUrl : Option String)
    (now : Nat) : CompleteResult × DB :=
  match getAttemptByIdForUser db attemptId userId with
  | none => (.notFound, db)
  | some attempt =>
      if attempt.status = Status.COMPLETED then (.okAlreadyCompleted, db)
      else
        let db1 : DB :=
          { db with
            rows := db.rows.map (fun a =>
              if a.attempt_id == attemptId && a.user_id == userId then
                { a with
                  status := Status.COMPLETED
                  pdf_url := jsOrNull pdfUrl
                  completed_at := some now
                  updated_at := now }
              else a) }
        (.ok, db1)

/-- A row of the `cases` table as far as the `/my-progress` join sees it. -/
structure CaseRow where
  case_id : Nat
  case_name : String
deriving DecidableEq, Repr

/-- A row of the `/my-progress` response: the selected attempt columns
joined with `cases.case_name`. -/
structure ProgressRow where
  attempt_id : Nat
  case_id : Nat
  status : Status
  last_page : String
  started_at : Nat
  updated_at : Nat
  completed_at : Option Nat
  pdf_url : Option String
  case_name : String
deriving DecidableEq, Repr

/-- Build one `/my-progress` row from an attempt and its case. -/
def mkProgressRow (a : Attempt) (c : CaseRow) : ProgressRow :=
  { attempt_id := a.attempt_id
    case_id := a.case_id
    status := a.status
    last_page := a.last_page
    started_at := a.started_at
    updated_at := a.updated_at
    completed_at := a.completed_at
    pdf_url := a.pdf_url
    case_name := c.case_name }

/-- The inner join `case_attempts a JOIN cases c ON c.case_id = a.case_id
WHERE a.user_id=?` of the `/my-progress` query. -/
def joinRows (db : DB) (cases : List CaseRow) (userId : Nat) : List ProgressRow :=
  (db.rows.filter (fun a => a.user_id == userId)).flatMap (fun a =>
    (cases.filter (fun c => c.case_id == a.case_id)).map (fun c =>
      mkProgressRow a c))

/-- `ORDER BY (a.status='IN_PROGRESS') DESC, a.updated_at DESC` as a sort
comparator: `r` may come before `s`. -/
def progressBefore (r s : ProgressRow) : Bool :=
  (if s.status = Status.IN_PROGRESS then (1 : Nat) else 0) <
      (if r.status = Status.IN_PROGRESS then (1 : Nat) else 0)
    || ((if r.status = Status.IN_PROGRESS then (1 : Nat) else 0) ==
          (if s.status = Status.IN_PROGRESS then (1 : Nat) else 0)
        && s.updated_at ≤ r.updated_at)

/-- `GET /my-progress` (route 4): the join, ordered by the ORDER BY clause.
No LIMIT/OFFSET: the full per-user set is returned. -/
def listForUser (db : DB) (cases : List CaseRow) (userId : Nat) : List ProgressRow :=
  (joinRows db cases userId).mergeSort progressBefore

/-- Every stored `attempt_id` is below the auto-increment counter (what
MySQL guarantees for an AUTO_INCREMENT key). -/
def FreshIds (db : DB) : Prop :=
  ∀ a ∈ db.rows, a.attempt_id < db.nextId

/-- `attempt_id` is a key: two rows with the same id are the same row. -/
def UniqueIds (db : DB) : Prop :=
  ∀ a ∈ db.rows, ∀ b ∈ db.rows, a.attempt_id = b.attempt_id → a = b

/-! ### Helper lemmas -/

lemma sectionJson_patch (a : Attempt) (lp : String) (n : Nat) (sec : String) :
    ({ a with last_page := lp, updated_at := n } : Attempt).sectionJson sec
      = a.sectionJson sec := rfl

lemma colMap_cases (sec col : String) (h : colMap sec = some col) :
    (sec = "history" ∧ col = "history_json") ∨ (sec = "exam" ∧ col = "exam_json") ∨
    (sec = "assessment" ∧ col = "assessment_json") ∨ (sec = "plan" ∧ col = "plan_json") ∨
    (sec = "attachments" ∧ col = "attachments_json") := by
  unfold colMap at h
  by_cases h1 : sec == "history"
  · rw [if_pos h1, Option.some.injEq] at h
    exact Or.inl ⟨eq_of_beq h1, h.symm⟩
  rw [if_neg h1] at h
  by_cases h2 : sec == "exam"
  · rw [if_pos h2, Option.some.injEq] at h
    exact Or.inr (Or.inl ⟨eq_of_beq h2, h.symm⟩)
  rw [if_neg h2] at h
  by_cases h3 : sec == "assessment"
  · rw [if_pos h3, Option.some.injEq] at h
    exact Or.inr (Or.inr (Or.inl ⟨eq_of_beq h3, h.symm⟩))
  rw [if_neg h3] at h
  by_cases h4 : sec == "plan"
  · rw [if_pos h4, Option.some.injEq] at h
    exact Or.inr (Or.inr (Or.inr (Or.inl ⟨eq_of_beq h4, h.symm⟩)))
  rw [if_neg h4] at h
  by_cases h5 : sec == "attachments"
  · rw [if_pos h5, Option.some.injEq] at h
    exact Or.inr (Or.inr (Or.inr (Or.inr ⟨eq_of_beq h5, h.symm⟩)))
  rw [if_neg h5] at h
  exact absurd h (by simp)

set_option maxHeartbeats 2000000 in
lemma sectionJson_setJsonCol (a : Attempt) (sec col v : String)
    (h : colMap sec = some col) :
    (a.setJsonCol col v).sectionJson sec = some v := by
  rcases colMap_cases sec col h with
    ⟨rfl, rfl⟩ | ⟨rfl, rfl⟩ | ⟨rfl, rfl⟩ | ⟨rfl, rfl⟩ | ⟨rfl, rfl⟩ <;> rfl

set_option maxHeartbeats 4000000 in
lemma sectionJson_setJsonCol_other (a : Attempt) (sec col v : String)
    (h : colMap sec = some col) (sec2 : String)
    (hm : sec2 = "history" ∨ sec2 = "exam" ∨ sec2 = "assessment" ∨
      sec2 = "plan" ∨ sec2 = "attachments")
    (hne : sec2 ≠ sec) :
    (a.setJsonCol col v).sectionJson sec2 = a.sectionJson sec2 := by
  rcases colMap_cases sec col h with
    ⟨rfl, rfl⟩ | ⟨rfl, rfl⟩ | ⟨rfl, rfl⟩ | ⟨rfl, rfl⟩ | ⟨rfl, rfl⟩ <;>
    rcases hm with rfl | rfl | rfl | rfl | rfl <;>
    first
    | exact absurd rfl hne
    | rfl

lemma complete_found_completed (db : DB) (attemptId userId : Nat)
    (pdfUrl : Option String) (now : Nat) (a : Attempt)
    (hfind : getAttemptByIdForUser db attemptId userId = some a)
    (hst : a.status = Status.COMPLETED) :
    complete db attemptId userId pdfUrl now = (CompleteResult.okAlreadyCompleted, db) := by
  unfold complete
  rw [hfind]
  simp [hst]

lemma setJsonCol_frame (a : Attempt) (col v : String) :
    (a.setJsonCol col v).attempt_id = a.attempt_id ∧
    (a.setJsonCol col v).case_id = a.case_id ∧
    (a.setJsonCol col v).user_id = a.user_id ∧
    (a.setJsonCol col v).status = a.status ∧
    (a.setJsonCol col v).last_page = a.last_page ∧
    (a.setJsonCol col v).pdf_url = a.pdf_url ∧
    (a.setJsonCol col v).started_at = a.started_at ∧
    (a.setJsonCol col v).updated_at = a.updated_at ∧
    (a.setJsonCol col v).completed_at = a.completed_at := by
  unfold Attempt.setJsonCol
  repeat' split
  all_goals simp

/-! ### Sample data for concrete witnesses -/

/-- A COMPLETED attempt of user 42 on case 7 (attempt id 1). -/
def sampleCompleted : Attempt :=
  { attempt_id := 1
    case_id := 7
    user_id := 42
    status := Status.COMPLETED
    last_page := "plan"
    history_json := some "\x7b\x7d"
    exam_json := none
    assessment_json := none
    plan_json := none
    attachments_json := none
    pdf_url := some "report.pdf"
    started_at := 1
    updated_at := 5
    completed_at := some 5 }

/-- An IN_PROGRESS attempt of user 42 on case 8 (attempt id 2). -/
def sampleInProgress : Attempt :=
  { attempt_id := 2
    case_id := 8
    user_id := 42
    status := Status.IN_PROGRESS
    last_page := "exam"
    history_json := some "\x7b\"cc\":\"blurry vision\"\x7d"
    exam_json := some "\x7b\"va\":\"20/40\"\x7d"
    assessment_json := none
    plan_json := none
    attachments_json := none
    pdf_url := none
    started_at := 2
    updated_at := 4
    completed_at := none }

/-- A two-row database holding the two sample attempts. -/
def sampleDB : DB := { rows := [sampleCompleted, sampleInProgress], nextId := 3 }

/-! ### Claims -/

/-- C4: `complete` is idempotent — when the attempt owned by the caller is
already COMPLETED, it returns `\x7bok:true, alreadyCompleted:true\x7d` and
performs no write to any column of the row (the database is unchanged). -/
theorem complete_already_completed_idempotent
    (db : DB) (attemptId userId : Nat) (pdfUrl : Option String) (now : Nat)
    (a : Attempt)
    (hfind : getAttemptByIdForUser db attemptId userId = some a)
    (hst : a.status = Status.COMPLETED) :
    complete db attemptId userId pdfUrl now = (CompleteResult.okAlreadyCompleted, db) :=
  complete_found_completed db attemptId userId pdfUrl now a hfind hst

/-- C4 witness: the idempotence theorem applied to the sample database at
the COMPLETED attempt id 1 of user 42. -/
theorem complete_already_completed_idempotent_witness :
    getAttemptByIdForUser sampleDB 1 42 = some sampleCompleted ∧
    sampleCompleted.status = Status.COMPLETED ∧
    complete sampleDB 1 42 (some "other.pdf") 9 = (CompleteResult.okAlreadyCompleted, sampleDB) :=
  ⟨rfl, rfl,
    complete_already_completed_idempotent sampleDB 1 42 (some "other.pdf") 9
      sampleCompleted rfl rfl⟩

/-- C6: `save` with a section value outside
\x7bhistory, exam, assessment, plan, attachments\x7d, on an attempt owned
by the caller and IN_PROGRESS, fails with `BAD_SECTION` and performs no
write: the database is returned unchanged. -/
theorem save_bad_section_no_write
    (db : DB) (attemptId userId : Nat) (sec : String) (dat : JsVal)
    (lastPage : Option String) (now : Nat) (a : Attempt)
    (hfind : getAttemptByIdForUser db attemptId userId = some a)
    (hst : a.status = Status.IN_PROGRESS)
    (hsec : colMap sec = none) :
    save db attemptId userId sec dat lastPage now = (SaveResult.badSection, db) := by
  unfold save
  rw [hfind]
  simp [hst, hsec]

/-- C6 witness: the BAD_SECTION theorem applied to the sample database at
the IN_PROGRESS attempt id 2 of user 42 with section `"bogus"`. -/
theorem save_bad_section_no_write_witness :
    getAttemptByIdForUser sampleDB 2 42 = some sampleInProgress ∧
    sampleInProgress.status = Status.IN_PROGRESS ∧
    colMap "bogus" = none ∧
    save sampleDB 2 42 "bogus" (.jobj [("x", .jnum 1)]) (some "exam") 9
      = (SaveResult.badSection, sampleDB) :=
  ⟨rfl, rfl, rfl,
    save_bad_section_no_write sampleDB 2 42 "bogus" (.jobj [("x", .jnum 1)])
      (some "exam") 9 sampleInProgress rfl rfl rfl⟩

/-- C9: in `save` the ownership lookup runs before section validation —
with an invalid section, a missing or foreign attempt id still yields
`NOT_FOUND` (never `BAD_SECTION`), and an owned COMPLETED attempt still
yields `CASE_COMPLETED` (never `BAD_SECTION`); the database is unchanged
in both cases. -/
theorem save_ownership_checked_before_section
    (db : DB) (attemptId userId : Nat) (sec : String) (dat : JsVal)
    (lastPage : Option String) (now : Nat)
    (_hsec : colMap sec = none) :
    (getAttemptByIdForUser db attemptId userId = none →
      save db attemptId userId sec dat lastPage now = (SaveResult.notFound, db)) ∧
    (∀ a, getAttemptByIdForUser db attemptId userId = some a →
      a.status = Status.COMPLETED →
      save db attemptId userId sec dat lastPage now = (SaveResult.caseCompleted, db)) := by
  refine ⟨fun h => ?_, fun a hfind hst => ?_⟩
  · unfold save
    rw [h]
  · unfold save
    rw [hfind]
    simp [hst]

/-- C9 witness: the ordering theorem applied to the sample database with
section `"bogus"`, at the missing attempt id 99 and at the owned COMPLETED
attempt id 1 of user 42. -/
theorem save_ownership_checked_before_section_witness :
    colMap "bogus" = none ∧
    getAttemptByIdForUser sampleDB 99 42 = none ∧
    save sampleDB 99 42 "bogus" .undef none 9 = (SaveResult.notFound, sampleDB) ∧
    getAttemptByIdForUser sampleDB 1 42 = some sampleCompleted ∧
    sampleCompleted.status = Status.COMPLETED ∧
    save sampleDB 1 42 "bogus" .undef none 9 = (SaveResult.caseCompleted, sampleDB) :=
  ⟨rfl, rfl,
    (save_ownership_checked_before_section sampleDB 99 42 "bogus" .undef none 9 rfl).1 rfl,
    rfl, rfl,
    (save_ownership_checked_before_section sampleDB 1 42 "bogus" .undef none 9 rfl).2
      sampleCompleted rfl rfl⟩

/-- C10: a `save` on an owned IN_PROGRESS attempt with a valid section but
falsy `data` (absent, null, false, 0, or "") succeeds and overwrites the
section's JSON column with the serialized empty object `"\x7b\x7d"` —
existing section content is erased, the call is not rejected. -/
theorem save_falsy_data_writes_empty_object
    (db : DB) (attemptId userId : Nat) (sec : String) (dat : JsVal)
    (lastPage : Option String) (now : Nat) (a : Attempt) (col : String)
    (hfind : getAttemptByIdForUser db attemptId userId = some a)
    (hst : a.status = Status.IN_PROGRESS)
    (hsec : colMap sec = some col)
    (hdata : dat.truthy = false) :
    (save db attemptId userId sec dat lastPage now).1 = SaveResult.ok ∧
    ∀ i, (h1 : i < db.rows.length) →
      (h2 : i < (save db attemptId userId sec dat lastPage now).2.rows.length) →
      db.rows[i].attempt_id = attemptId →
      db.rows[i].user_id = userId →
      ((save db attemptId userId sec dat lastPage now).2.rows[i]).sectionJson sec
        = some "\x7b\x7d" := by
  have hpayload : (jsOrEmptyObj dat).stringify = "\x7b\x7d" := by
    unfold jsOrEmptyObj
    rw [hdata]
    rfl
  constructor
  · simp [save, hfind, hst, hsec]
  · intro i h1 h2 hid huid
    have hrows : (save db attemptId userId sec dat lastPage now).2.rows
        = db.rows.map (fun a2 =>
            if a2.attempt_id == attemptId && a2.user_id == userId then
              { a2.setJsonCol col ((jsOrEmptyObj dat).stringify) with
                last_page := (jsOrNull lastPage).getD a2.last_page
                updated_at := now }
            else a2) := by
      simp [save, hfind, hst, hsec]
    have hget : (save db attemptId userId sec dat lastPage now).2.rows[i]
        = { db.rows[i].setJsonCol col ((jsOrEmptyObj dat).stringify) with
            last_page := (jsOrNull lastPage).getD db.rows[i].last_page
            updated_at := now } := by
      simp only [hrows, List.getElem_map]
      rw [if_pos (by simp [hid, huid])]
    rw [hget, sectionJson_patch, hpayload, sectionJson_setJsonCol _ _ _ _ hsec]

/-- C10 witness: the falsy-data theorem applied to the sample database at
the IN_PROGRESS attempt id 2 of user 42, section `"exam"`, `data: null` —
the previously saved `exam_json` content is replaced by `"\x7b\x7d"`. -/
theorem save_falsy_data_writes_empty_object_witness :
    getAttemptByIdForUser sampleDB 2 42 = some sampleInProgress ∧
    sampleInProgress.status = Status.IN_PROGRESS ∧
    colMap "exam" = some "exam_json" ∧
    JsVal.truthy .nullv = false ∧
    (save sampleDB 2 42 "exam" .nullv none 9).1 = SaveResult.ok ∧
    ((save sampleDB 2 42 "exam" .nullv none 9).2.rows.get
        ⟨1, by decide⟩).sectionJson "exam" = some "\x7b\x7d" := by
  refine ⟨rfl, rfl, rfl, rfl, ?_, ?_⟩
  · exact (save_falsy_data_writes_empty_object sampleDB 2 42 "exam" .nullv none 9
      sampleInProgress "exam_json" rfl rfl rfl rfl).1
  · exact (save_falsy_data_writes_empty_object sampleDB 2 42 "exam" .nullv none 9
      sampleInProgress "exam_json" rfl rfl rfl rfl).2 1 (by decide) (by decide) rfl rfl

/-- C5: on an attempt owned by the caller with status IN_PROGRESS,
`complete` returns `\x7bok:true\x7d`, and in the resulting database the
matching rows have status COMPLETED, `pdf_url` set to the supplied
`pdfUrl`, `completed_at` and `updated_at` stamped to now, with every other
column unchanged; non-matching rows are untouched.  The transition is
terminal and one-way: a repeated `complete` returns `alreadyCompleted` and
leaves the database unchanged. -/
theorem complete_in_progress_one_way
    (db : DB) (attemptId userId : Nat) (pdfUrl : Option String) (now : Nat)
    (a : Attempt)
    (hfind : getAttemptByIdForUser db attemptId userId = some a)
    (hst : a.status = Status.IN_PROGRESS)
    (hpdf : pdfUrl = none ∨ ∃ s, pdfUrl = some s ∧ s ≠ "") :
    (complete db attemptId userId pdfUrl now).1 = CompleteResult.ok ∧
    (complete db attemptId userId pdfUrl now).2.rows.length = db.rows.length ∧
    (∀ i, (h1 : i < db.rows.length) →
      (h2 : i < (complete db attemptId userId pdfUrl now).2.rows.length) →
      (db.rows[i].attempt_id = attemptId ∧ db.rows[i].user_id = userId →
        (complete db attemptId userId pdfUrl now).2.rows[i]
          = { db.rows[i] with
              status := Status.COMPLETED
              pdf_url := pdfUrl
              completed_at := some now
              updated_at := now }) ∧
      (¬(db.rows[i].attempt_id = attemptId ∧ db.rows[i].user_id = userId) →
        (complete db attemptId userId pdfUrl now).2.rows[i] = db.rows[i])) ∧
    (∀ pdfUrl2 now2,
      complete (complete db attemptId userId pdfUrl now).2 attemptId userId pdfUrl2 now2
        = (CompleteResult.okAlreadyCompleted, (complete db attemptId userId pdfUrl now).2)) := by
  have hj : jsOrNull pdfUrl = pdfUrl := by
    rcases hpdf with rfl | ⟨s, rfl, hs⟩
    · rfl
    · unfold jsOrNull jsStrTruthy
      simp [hs]
  have hrows : (complete db attemptId userId pdfUrl now).2.rows
      = db.rows.map (fun a2 =>
          if a2.attempt_id == attemptId && a2.user_id == userId then
            { a2 with
              status := Status.COMPLETED
              pdf_url := jsOrNull pdfUrl
              completed_at := some now
              updated_at := now }
          else a2) := by
    simp [complete, hfind, hst]
  have hcond_a : (a.attempt_id == attemptId && a.user_id == userId) = true := by
    have := List.find?_some (p := fun x : Attempt =>
      x.attempt_id == attemptId && x.user_id == userId)
      (by unfold getAttemptByIdForUser at hfind; exact hfind)
    exact this
  refine ⟨by simp [complete, hfind, hst], by rw [hrows]; exact List.length_map _ _, ?_, ?_⟩
  · intro i h1 h2
    constructor
    · rintro ⟨hid, huid⟩
      simp only [hrows, List.getElem_map]
      rw [if_pos (by simp [hid, huid])]
      simp only [hj]
    · intro hn
      simp only [hrows, List.getElem_map]
      rw [if_neg]
      simp only [Bool.and_eq_true, beq_iff_eq]
      exact hn
  · intro pdfUrl2 now2
    have hfind2 : getAttemptByIdForUser (complete db attemptId userId pdfUrl now).2
        attemptId userId
        = some { a with
                 status := Status.COMPLETED
                 pdf_url := jsOrNull pdfUrl
                 completed_at := some now
                 updated_at := now } := by
      unfold getAttemptByIdForUser
      rw [hrows, List.find?_map]
      have hpf : ((fun x : Attempt => x.attempt_id == attemptId && x.user_id == userId) ∘
          (fun a2 : Attempt =>
            if a2.attempt_id == attemptId && a2.user_id == userId then
              { a2 with
                status := Status.COMPLETED
                pdf_url := jsOrNull pdfUrl
                completed_at := some now
                updated_at := now }
            else a2))
          = (fun x : Attempt => x.attempt_id == attemptId && x.user_id == userId) := by
        funext x
        by_cases hc : (x.attempt_id == attemptId && x.user_id == userId) = true
        · simp only [Function.comp_apply, if_pos hc]
        · simp only [Function.comp_apply, if_neg hc]
      rw [hpf]
      have hfa : List.find? (fun x : Attempt =>
          x.attempt_id == attemptId && x.user_id == userId) db.rows = some a := by
        unfold getAttemptByIdForUser at hfind
        exact hfind
      rw [hfa]
      show some (if a.attempt_id == attemptId && a.user_id == userId then
            ({ a with
               status := Status.COMPLETED
               pdf_url := jsOrNull pdfUrl
               completed_at := some now
               updated_at := now } : Attempt)
          else a)
        = some { a with
                 status := Status.COMPLETED
                 pdf_url := jsOrNull pdfUrl
                 completed_at := some now
                 updated_at := now }
      rw [if_pos hcond_a]
    exact complete_found_completed _ _ _ _ _ _ hfind2 rfl

/-- C5 witness: the completion theorem applied to the sample database at
the IN_PROGRESS attempt id 2 of user 42 with `pdfUrl = "done.pdf"`. -/
theorem complete_in_progress_one_way_witness :
    getAttemptByIdForUser sampleDB 2 42 = some sampleInProgress ∧
    sampleInProgress.status = Status.IN_PROGRESS ∧
    (some "done.pdf" = (none : Option String) ∨
      ∃ s, (some "done.pdf" : Option String) = some s ∧ s ≠ "") ∧
    (complete sampleDB 2 42 (some "done.pdf") 9).1 = CompleteResult.ok ∧
    (complete sampleDB 2 42 (some "done.pdf") 9).2.rows[1]?
      = some { sampleInProgress with
               status := Status.COMPLETED
               pdf_url := some "done.pdf"
               completed_at := some 9
               updated_at := 9 } ∧
    complete (complete sampleDB 2 42 (some "done.pdf") 9).2 2 42 none 11
      = (CompleteResult.okAlreadyCompleted, (complete sampleDB 2 42 (some "done.pdf") 9).2) := by
  have hpdf : (some "done.pdf" = (none : Option String) ∨
      ∃ s, (some "done.pdf" : Option String) = some s ∧ s ≠ "") :=
    Or.inr ⟨"done.pdf", rfl, by decide⟩
  have h := complete_in_progress_one_way sampleDB 2 42 (some "done.pdf") 9
    sampleInProgress rfl rfl hpdf
  refine ⟨rfl, rfl, hpdf, h.1, ?_, h.2.2.2 none 11⟩
  have h3 := (h.2.2.1 1 (by decide) (by simp [h.2.1]; decide)).1 (by decide)
  rw [List.getElem?_eq_getElem (by simp [h.2.1]; decide)]
  rw [h3]
  rfl

lemma find?_id_append_fresh (db : DB) (hfresh : FreshIds db) (a : Attempt)
    (ha : a.attempt_id = db.nextId) :
    (db.rows ++ [a]).find? (fun x => x.attempt_id == db.nextId) = some a := by
  rw [List.find?_append]
  have h1 : db.rows.find? (fun x => x.attempt_id == db.nextId) = none := by
    rw [List.find?_eq_none]
    intro x hx
    simp only [beq_iff_eq]
    exact Nat.ne_of_lt (hfresh x hx)
  rw [h1]
  simp [List.find?, ha]

/-- C2: for a (caseId, userId) pair with no existing attempt row, `ensure`
appends exactly one new row — status IN_PROGRESS, `last_page` the supplied
`lastPage` or the fixed initial section identifier `"history"` when none is
supplied, `started_at`/`updated_at` stamped, everything else unset — and
returns that created attempt. -/
theorem ensure_creates_in_progress
    (db : DB) (caseId userId : Nat) (lastPage : Option String) (now : Nat)
    (hfresh : FreshIds db)
    (hcid : caseId ≠ 0)
    (hnone : getAttemptByCaseForUser db caseId userId = none)
    (hlp : lastPage = none ∨ ∃ s, lastPage = some s ∧ s ≠ "") :
    ∃ created,
      ensure db (some caseId) userId lastPage now
        = (EnsureResult.ok (some created),
           { rows := db.rows ++ [created], nextId := db.nextId + 1 }) ∧
      created = { attempt_id := db.nextId
                  case_id := caseId
                  user_id := userId
                  status := Status.IN_PROGRESS
                  last_page := lastPage.getD "history"
                  history_json := none
                  exam_json := none
                  assessment_json := none
                  plan_json := none
                  attachments_json := none
                  pdf_url := none
                  started_at := now
                  updated_at := now
                  completed_at := none } := by
  have hlp' : jsStrOr lastPage "history" = lastPage.getD "history" := by
    rcases hlp with rfl | ⟨s, rfl, hs⟩
    · rfl
    · unfold jsStrOr
      simp [hs]
  have hc0 : (caseId == 0) = false := beq_eq_false_iff_ne.mpr hcid
  refine ⟨{ attempt_id := db.nextId
            case_id := caseId
            user_id := userId
            status := Status.IN_PROGRESS
            last_page := jsStrOr lastPage "history"
            history_json := none
            exam_json := none
            assessment_json := none
            plan_json := none
            attachments_json := none
            pdf_url := none
            started_at := now
            updated_at := now
            completed_at := none }, ?_, by simp [hlp']⟩
  simp only [ensure, hc0, Bool.false_eq_true, if_false, hnone, insertAttempt]
  have hfound := find?_id_append_fresh db hfresh
    { attempt_id := db.nextId
      case_id := caseId
      user_id := userId
      status := Status.IN_PROGRESS
      last_page := jsStrOr lastPage "history"
      history_json := none
      exam_json := none
      assessment_json := none
      plan_json := none
      attachments_json := none
      pdf_url := none
      started_at := now
      updated_at := now
      completed_at := none } rfl
  unfold getAttemptById
  simp only [hfound]

/-- C2 witness: applied to the sample database (which has no attempt of
user 43 on case 9): `ensure` creates row id 3 with status IN_PROGRESS and
default `last_page = "history"`. -/
theorem ensure_creates_in_progress_witness :
    FreshIds sampleDB ∧ (9 : Nat) ≠ 0 ∧
    getAttemptByCaseForUser sampleDB 9 43 = none ∧
    ∃ created,
      ensure sampleDB (some 9) 43 none 10
        = (EnsureResult.ok (some created),
           { rows := sampleDB.rows ++ [created], nextId := sampleDB.nextId + 1 }) ∧
      created = { attempt_id := sampleDB.nextId
                  case_id := 9
                  user_id := 43
                  status := Status.IN_PROGRESS
                  last_page := (none : Option String).getD "history"
                  history_json := none
                  exam_json := none
                  assessment_json := none
                  plan_json := none
                  attachments_json := none
                  pdf_url := none
                  started_at := 10
                  updated_at := 10
                  completed_at := none } := by
  refine ⟨by unfold FreshIds; decide, by decide, rfl, ?_⟩
  exact ensure_creates_in_progress sampleDB 9 43 none 10 (by unfold FreshIds; decide)
    (by decide) rfl (Or.inl rfl)

/-- C7: a successful `save` with a valid section overwrites only that
section's JSON column wholesale (with the serialization of `data || \x7b\x7d`),
updates `last_page` only when `lastPage` is provided (otherwise it is
unchanged), always refreshes `updated_at`, and leaves the other four
section JSON columns, `status`, `pdf_url`, `completed_at`, `started_at`
and the key columns untouched; rows of other attempts are untouched. -/
theorem save_valid_section_frame
    (db : DB) (attemptId userId : Nat) (sec : String) (dat : JsVal)
    (lastPage : Option String) (now : Nat) (a : Attempt) (col : String)
    (hfind : getAttemptByIdForUser db attemptId userId = some a)
    (hst : a.status = Status.IN_PROGRESS)
    (hsec : colMap sec = some col)
    (hlp : ∀ s, lastPage = some s → s ≠ "") :
    (save db attemptId userId sec dat lastPage now).1 = SaveResult.ok ∧
    (save db attemptId userId sec dat lastPage now).2.rows.length = db.rows.length ∧
    ∀ i, (h1 : i < db.rows.length) →
      (h2 : i < (save db attemptId userId sec dat lastPage now).2.rows.length) →
      (db.rows[i].attempt_id = attemptId ∧ db.rows[i].user_id = userId →
        ((save db attemptId userId sec dat lastPage now).2.rows[i]).sectionJson sec
            = some ((jsOrEmptyObj dat).stringify) ∧
        (∀ sec2, (sec2 = "history" ∨ sec2 = "exam" ∨ sec2 = "assessment" ∨
            sec2 = "plan" ∨ sec2 = "attachments") → sec2 ≠ sec →
          ((save db attemptId userId sec dat lastPage now).2.rows[i]).sectionJson sec2
            = db.rows[i].sectionJson sec2) ∧
        ((save db attemptId userId sec dat lastPage now).2.rows[i]).status
            = db.rows[i].status ∧
        ((save db attemptId userId sec dat lastPage now).2.rows[i]).pdf_url
            = db.rows[i].pdf_url ∧
        ((save db attemptId userId sec dat lastPage now).2.rows[i]).completed_at
            = db.rows[i].completed_at ∧
        ((save db attemptId userId sec dat lastPage now).2.rows[i]).started_at
            = db.rows[i].started_at ∧
        ((save db attemptId userId sec dat lastPage now).2.rows[i]).attempt_id
            = db.rows[i].attempt_id ∧
        ((save db attemptId userId sec dat lastPage now).2.rows[i]).case_id
            = db.rows[i].case_id ∧
        ((save db attemptId userId sec dat lastPage now).2.rows[i]).user_id
            = db.rows[i].user_id ∧
        ((save db attemptId userId sec dat lastPage now).2.rows[i]).updated_at = now ∧
        (lastPage = none →
          ((save db attemptId userId sec dat lastPage now).2.rows[i]).last_page
            = db.rows[i].last_page) ∧
        (∀ s, lastPage = some s →
          ((save db attemptId userId sec dat lastPage now).2.rows[i]).last_page = s)) ∧
      (¬(db.rows[i].attempt_id = attemptId ∧ db.rows[i].user_id = userId) →
        (save db attemptId userId sec dat lastPage now).2.rows[i] = db.rows[i]) := by
  have hrows : (save db attemptId userId sec dat lastPage now).2.rows
      = db.rows.map (fun a2 =>
          if a2.attempt_id == attemptId && a2.user_id == userId then
            { a2.setJsonCol col ((jsOrEmptyObj dat).stringify) with
              last_page := (jsOrNull lastPage).getD a2.last_page
              updated_at := now }
          else a2) := by
    simp [save, hfind, hst, hsec]
  refine ⟨by simp [save, hfind, hst, hsec],
    by rw [hrows]; exact List.length_map _ _, ?_⟩
  intro i h1 h2
  constructor
  · rintro ⟨hid, huid⟩
    have hget : (save db attemptId userId sec dat lastPage now).2.rows[i]
        = { db.rows[i].setJsonCol col ((jsOrEmptyObj dat).stringify) with
            last_page := (jsOrNull lastPage).getD db.rows[i].last_page
            updated_at := now } := by
      simp only [hrows, List.getElem_map]
      rw [if_pos (by simp [hid, huid])]
    obtain ⟨f1, f2, f3, f4, f5, f6, f7, f8, f9⟩ :=
      setJsonCol_frame (db.rows[i]) col ((jsOrEmptyObj dat).stringify)
    refine ⟨?_, ?_, ?_, ?_, ?_, ?_, ?_, ?_, ?_, ?_, ?_, ?_⟩
    · rw [hget, sectionJson_patch]
      exact sectionJson_setJsonCol _ _ _ _ hsec
    · intro sec2 hmem hne
      rw [hget, sectionJson_patch]
      exact sectionJson_setJsonCol_other _ _ _ _ hsec sec2 hmem hne
    · rw [hget]; exact f4
    · rw [hget]; exact f6
    · rw [hget]; exact f9
    · rw [hget]; exact f7
    · rw [hget]; exact f1
    · rw [hget]; exact f2
    · rw [hget]; exact f3
    · rw [hget]
    · rintro rfl
      rw [hget]
      rfl
    · rintro s rfl
      rw [hget]
      have : jsOrNull (some s) = some s := by
        unfold jsOrNull jsStrTruthy
        simp [hlp s rfl]
      rw [this]
      rfl
  · intro hn
    simp only [hrows, List.getElem_map]
    rw [if_neg]
    simp only [Bool.and_eq_true, beq_iff_eq]
    exact hn

/-- C7 witness: the frame theorem applied to the sample database at the
IN_PROGRESS attempt id 2 of user 42, section `"exam"` with a concrete
payload and `lastPage = "assessment"`: only `exam_json` changes, the
other section columns, `status`, `pdf_url` and `completed_at` keep their
values, `last_page` becomes `"assessment"` and `updated_at` becomes 9. -/
theorem save_valid_section_frame_witness :
    getAttemptByIdForUser sampleDB 2 42 = some sampleInProgress ∧
    sampleInProgress.status = Status.IN_PROGRESS ∧
    colMap "exam" = some "exam_json" ∧
    (save sampleDB 2 42 "exam" (.jobj [("va", .jstr "20/30")])
        (some "assessment") 9).1 = SaveResult.ok ∧
    ((save sampleDB 2 42 "exam" (.jobj [("va", .jstr "20/30")])
        (some "assessment") 9).2.rows.get ⟨1, by decide⟩).sectionJson "exam"
      = some ((jsOrEmptyObj (.jobj [("va", .jstr "20/30")])).stringify) ∧
    ((save sampleDB 2 42 "exam" (.jobj [("va", .jstr "20/30")])
        (some "assessment") 9).2.rows.get ⟨1, by decide⟩).sectionJson "history"
      = sampleInProgress.sectionJson "history" ∧
    ((save sampleDB 2 42 "exam" (.jobj [("va", .jstr "20/30")])
        (some "assessment") 9).2.rows.get ⟨1, by decide⟩).status
      = sampleInProgress.status ∧
    ((save sampleDB 2 42 "exam" (.jobj [("va", .jstr "20/30")])
        (some "assessment") 9).2.rows.get ⟨1, by decide⟩).last_page = "assessment" ∧
    ((save sampleDB 2 42 "exam" (.jobj [("va", .jstr "20/30")])
        (some "assessment") 9).2.rows.get ⟨1, by decide⟩).updated_at = 9 ∧
    (save sampleDB 2 42 "exam" (.jobj [("va", .jstr "20/30")])
        (some "assessment") 9).2.rows.get ⟨0, by decide⟩ = sampleCompleted := by
  have hlp : ∀ s, (some "assessment" : Option String) = some s → s ≠ "" := by
    intro s h
    cases h
    decide
  have h := save_valid_section_frame sampleDB 2 42 "exam"
    (.jobj [("va", .jstr "20/30")]) (some "assessment") 9
    sampleInProgress "exam_json" rfl rfl rfl hlp
  have hm := (h.2.2 1 (by decide) (by rw [h.2.1]; decide)).1 (by decide)
  have hu := (h.2.2 0 (by decide) (by rw [h.2.1]; decide)).2 (by decide)
  exact ⟨rfl, rfl, rfl, h.1, hm.1, hm.2.1 "history" (Or.inl rfl) (by decide),
    hm.2.2.1, hm.2.2.2.2.2.2.2.2.2.2.2 "assessment" rfl,
    hm.2.2.2.2.2.2.2.2.2.1, hu⟩

lemma ensure_rows_shape (db : DB) (caseId : Option Nat) (userId : Nat)
    (lastPage : Option String) (now : Nat) :
    ∀ b ∈ (ensure db caseId userId lastPage now).2.rows,
      (∃ c ∈ db.rows, b.attempt_id = c.attempt_id ∧ b.status = c.status) ∨
      b.attempt_id = db.nextId := by
  intro b hb
  unfold ensure at hb
  cases caseId with
  | none => exact Or.inl ⟨b, hb, rfl, rfl⟩
  | some cid =>
    simp only [] at hb
    by_cases h0 : (cid == 0) = true
    · rw [if_pos h0] at hb
      exact Or.inl ⟨b, hb, rfl, rfl⟩
    rw [if_neg h0] at hb
    cases hfind : getAttemptByCaseForUser db cid userId with
    | some existing =>
      rw [hfind] at hb
      simp only [] at hb
      by_cases hcs : existing.status = Status.COMPLETED
      · rw [if_pos hcs] at hb
        exact Or.inl ⟨b, hb, rfl, rfl⟩
      rw [if_neg hcs] at hb
      cases lastPage with
      | none => exact Or.inl ⟨b, hb, rfl, rfl⟩
      | some lp =>
        simp only [] at hb
        by_cases hlp : (lp == "") = true
        · rw [if_pos hlp] at hb
          exact Or.inl ⟨b, hb, rfl, rfl⟩
        rw [if_neg hlp] at hb
        simp only [updateLastPage, List.mem_map] at hb
        obtain ⟨c, hc, rfl⟩ := hb
        by_cases hcid2 : (c.attempt_id == existing.attempt_id) = true
        · rw [if_pos hcid2]
          exact Or.inl ⟨c, hc, rfl, rfl⟩
        · rw [if_neg hcid2]
          exact Or.inl ⟨c, hc, rfl, rfl⟩
    | none =>
      rw [hfind] at hb
      simp only [] at hb
      simp only [insertAttempt, List.mem_append, List.mem_singleton] at hb
      rcases hb with hb | rfl
      · exact Or.inl ⟨b, hb, rfl, rfl⟩
      · exact Or.inr rfl

lemma save_rows_shape (db : DB) (attemptId userId : Nat) (sec : String)
    (dat : JsVal) (lastPage : Option String) (now : Nat) :
    ∀ b ∈ (save db attemptId userId sec dat lastPage now).2.rows,
      ∃ c ∈ db.rows, b.attempt_id = c.attempt_id ∧ b.status = c.status := by
  intro b hb
  unfold save at hb
  cases hfind : getAttemptByIdForUser db attemptId userId with
  | none =>
    rw [hfind] at hb
    exact ⟨b, hb, rfl, rfl⟩
  | some attempt =>
    rw [hfind] at hb
    simp only [] at hb
    by_cases hcs : attempt.status = Status.COMPLETED
    · rw [if_pos hcs] at hb
      exact ⟨b, hb, rfl, rfl⟩
    rw [if_neg hcs] at hb
    cases hcol : colMap sec with
    | none =>
      rw [hcol] at hb
      exact ⟨b, hb, rfl, rfl⟩
    | some col =>
      rw [hcol] at hb
      simp only [] at hb
      simp only [List.mem_map] at hb
      obtain ⟨c, hc, rfl⟩ := hb
      by_cases hcond : (c.attempt_id == attemptId && c.user_id == userId) = true
      · rw [if_pos hcond]
        obtain ⟨f1, _, _, f4, _⟩ := setJsonCol_frame c col ((jsOrEmptyObj dat).stringify)
        exact ⟨c, hc, f1, f4⟩
      · rw [if_neg hcond]
        exact ⟨c, hc, rfl, rfl⟩

lemma complete_rows_shape (db : DB) (attemptId userId : Nat)
    (pdfUrl : Option String) (now : Nat) :
    ∀ b ∈ (complete db attemptId userId pdfUrl now).2.rows,
      ∃ c ∈ db.rows, b.attempt_id = c.attempt_id ∧
        (b.status = c.status ∨ b.status = Status.COMPLETED) := by
  intro b hb
  unfold complete at hb
  cases hfind : getAttemptByIdForUser db attemptId userId with
  | none =>
    rw [hfind] at hb
    exact ⟨b, hb, rfl, Or.inl rfl⟩
  | some attempt =>
    rw [hfind] at hb
    simp only [] at hb
    by_cases hcs : attempt.status = Status.COMPLETED
    · rw [if_pos hcs] at hb
      exact ⟨b, hb, rfl, Or.inl rfl⟩
    rw [if_neg hcs] at hb
    simp only [List.mem_map] at hb
    obtain ⟨c, hc, rfl⟩ := hb
    by_cases hcond : (c.attempt_id == attemptId && c.user_id == userId) = true
    · rw [if_pos hcond]
      exact ⟨c, hc, rfl, Or.inr rfl⟩
    · rw [if_neg hcond]
      exact ⟨c, hc, rfl, Or.inl rfl⟩

/-- C1: a COMPLETED attempt is immutable — `ensure` and `guardByCase` for
its (case, user) pair and `save` for its attempt id all fail with
`CASE_COMPLETED` performing no write (the database is returned unchanged),
and no operation (`ensure`, `save`, `complete` on any arguments) ever
changes its status back to IN_PROGRESS. -/
theorem completed_attempt_immutable
    (db : DB) (a : Attempt)
    (hfresh : FreshIds db) (huniq : UniqueIds db)
    (ha : a ∈ db.rows)
    (hst : a.status = Status.COMPLETED)
    (hcase : getAttemptByCaseForUser db a.case_id a.user_id = some a)
    (hbyid : getAttemptByIdForUser db a.attempt_id a.user_id = some a)
    (hcid : a.case_id ≠ 0) :
    (∀ lastPage now,
      ensure db (some a.case_id) a.user_id lastPage now
        = (EnsureResult.caseCompleted a, db)) ∧
    guardByCase db a.case_id a.user_id = GuardResult.caseCompleted a ∧
    (∀ sec dat lastPage now,
      save db a.attempt_id a.user_id sec dat lastPage now
        = (SaveResult.caseCompleted, db)) ∧
    (∀ caseId userId lastPage now,
      ∀ b ∈ (ensure db caseId userId lastPage now).2.rows,
        b.attempt_id = a.attempt_id → b.status = Status.COMPLETED) ∧
    (∀ attemptId userId sec dat lastPage now,
      ∀ b ∈ (save db attemptId userId sec dat lastPage now).2.rows,
        b.attempt_id = a.attempt_id → b.status = Status.COMPLETED) ∧
    (∀ attemptId userId pdfUrl now,
      ∀ b ∈ (complete db attemptId userId pdfUrl now).2.rows,
        b.attempt_id = a.attempt_id → b.status = Status.COMPLETED) := by
  have hc0 : (a.case_id == 0) = false := beq_eq_false_iff_ne.mpr hcid
  refine ⟨?_, ?_, ?_, ?_, ?_, ?_⟩
  · intro lastPage now
    simp [ensure, hc0, hcase, hst]
  · simp [guardByCase, hcase, hst]
  · intro sec dat lastPage now
    simp [save, hbyid, hst]
  · intro caseId userId lastPage now b hb hid
    rcases ensure_rows_shape db caseId userId lastPage now b hb with
      ⟨c, hc, hbc, hbs⟩ | hnew
    · have : c = a := huniq c hc a ha (hbc ▸ hid)
      rw [hbs, this, hst]
    · exact absurd (hnew ▸ hid).symm (Nat.ne_of_lt (hfresh a ha))
  · intro attemptId userId sec dat lastPage now b hb hid
    obtain ⟨c, hc, hbc, hbs⟩ :=
      save_rows_shape db attemptId userId sec dat lastPage now b hb
    have : c = a := huniq c hc a ha (hbc ▸ hid)
    rw [hbs, this, hst]
  · intro attemptId userId pdfUrl now b hb hid
    obtain ⟨c, hc, hbc, hbs⟩ :=
      complete_rows_shape db attemptId userId pdfUrl now b hb
    rcases hbs with hbs | hbs
    · have : c = a := huniq c hc a ha (hbc ▸ hid)
      rw [hbs, this, hst]
    · exact hbs

/-- C1 witness: the immutability theorem applied to the sample database at
the COMPLETED attempt id 1 of user 42: `ensure`, `guardByCase` and `save`
all answer CASE_COMPLETED without a write, and after an arbitrary
`complete` call every row with attempt id 1 is still COMPLETED. -/
theorem completed_attempt_immutable_witness :
    FreshIds sampleDB ∧ UniqueIds sampleDB ∧
    sampleCompleted ∈ sampleDB.rows ∧
    sampleCompleted.status = Status.COMPLETED ∧
    getAttemptByCaseForUser sampleDB 7 42 = some sampleCompleted ∧
    getAttemptByIdForUser sampleDB 1 42 = some sampleCompleted ∧
    ensure sampleDB (some 7) 42 (some "exam") 11
      = (EnsureResult.caseCompleted sampleCompleted, sampleDB) ∧
    guardByCase sampleDB 7 42 = GuardResult.caseCompleted sampleCompleted ∧
    save sampleDB 1 42 "history" (.jobj []) none 11
      = (SaveResult.caseCompleted, sampleDB) ∧
    (∀ b ∈ (complete sampleDB 1 42 (some "x.pdf") 11).2.rows,
      b.attempt_id = 1 → b.status = Status.COMPLETED) := by
  have h := completed_attempt_immutable sampleDB sampleCompleted
    (by unfold FreshIds; decide) (by unfold UniqueIds; decide)
    (by decide) rfl rfl rfl (by decide)
  exact ⟨by unfold FreshIds; decide, by unfold UniqueIds; decide, by decide, rfl, rfl, rfl,
    h.1 (some "exam") 11, h.2.1, h.2.2.1 "history" (.jobj []) none 11,
    h.2.2.2.2.2 1 42 (some "x.pdf") 11⟩

lemma getByCase_updateLastPage (db : DB) (cid uid aid : Nat) (lp : String) (n : Nat) :
    getAttemptByCaseForUser (updateLastPage db aid lp n) cid uid
      = (getAttemptByCaseForUser db cid uid).map
          (fun m => if m.attempt_id == aid then
            { m with last_page := lp, updated_at := n } else m) := by
  unfold getAttemptByCaseForUser updateLastPage
  rw [List.find?_map]
  have hpf : ((fun a : Attempt => a.case_id == cid && a.user_id == uid) ∘
      (fun a : Attempt => if a.attempt_id == aid then
        { a with last_page := lp, updated_at := n } else a))
      = (fun a : Attempt => a.case_id == cid && a.user_id == uid) := by
    funext x
    by_cases hc : (x.attempt_id == aid) = true
    · simp only [Function.comp_apply, if_pos hc]
    · simp only [Function.comp_apply, if_neg hc]
  rw [hpf]

lemma ensure_found_inprogress (db : DB) (cid uid : Nat) (m : Attempt)
    (lp : Option String) (n : Nat)
    (hc0 : (cid == 0) = false)
    (hfind : getAttemptByCaseForUser db cid uid = some m)
    (hm : ¬ m.status = Status.COMPLETED) :
    ∃ r m2,
      (ensure db (some cid) uid lp n).1 = EnsureResult.ok (some r) ∧
      r.attempt_id = m.attempt_id ∧
      (ensure db (some cid) uid lp n).2.rows.length = db.rows.length ∧
      getAttemptByCaseForUser (ensure db (some cid) uid lp n).2 cid uid = some m2 ∧
      m2.attempt_id = m.attempt_id ∧ m2.status = m.status := by
  cases lp with
  | none =>
    have he : ensure db (some cid) uid none n = (EnsureResult.ok (some m), db) := by
      simp [ensure, hc0, hfind, hm]
    exact ⟨m, m, by rw [he], rfl, by rw [he], by rw [he]; exact hfind, rfl, rfl⟩
  | some l =>
    by_cases hl : (l == "") = true
    · have he : ensure db (some cid) uid (some l) n = (EnsureResult.ok (some m), db) := by
        simp [ensure, hc0, hfind, hm, hl]
      exact ⟨m, m, by rw [he], rfl, by rw [he], by rw [he]; exact hfind, rfl, rfl⟩
    · have hl' : (l == "") = false := by simpa using hl
      have he : ensure db (some cid) uid (some l) n
          = (EnsureResult.ok (some { m with last_page := l }),
             updateLastPage db m.attempt_id l n) := by
        simp [ensure, hc0, hfind, hm, hl']
      refine ⟨{ m with last_page := l },
        { m with last_page := l, updated_at := n }, by rw [he], rfl, ?_, ?_, rfl, rfl⟩
      · rw [he]
        simp [updateLastPage]
      · rw [he]
        show getAttemptByCaseForUser (updateLastPage db m.attempt_id l n) cid uid = _
        rw [getByCase_updateLastPage, hfind]
        simp

lemma ensure_not_found (db : DB) (cid uid : Nat) (lp : Option String) (n : Nat)
    (hc0 : (cid == 0) = false)
    (hfind : getAttemptByCaseForUser db cid uid = none) :
    ∃ r m2,
      (ensure db (some cid) uid lp n).1 = EnsureResult.ok (some r) ∧
      r.attempt_id = db.nextId ∧
      (ensure db (some cid) uid lp n).2.rows.length = db.rows.length + 1 ∧
      getAttemptByCaseForUser (ensure db (some cid) uid lp n).2 cid uid = some m2 ∧
      m2.attempt_id = db.nextId ∧ m2.status = Status.IN_PROGRESS := by
  have he : ensure db (some cid) uid lp n
      = (EnsureResult.ok (getAttemptById
            (insertAttempt db cid uid (jsStrOr lp "history") Status.IN_PROGRESS n).2
            db.nextId),
         (insertAttempt db cid uid (jsStrOr lp "history") Status.IN_PROGRESS n).2) := by
    simp [ensure, hc0, hfind]
  cases hx : getAttemptById
      (insertAttempt db cid uid (jsStrOr lp "history") Status.IN_PROGRESS n).2
      db.nextId with
  | none =>
    exfalso
    unfold getAttemptById at hx
    have hmem : (insertAttempt db cid uid (jsStrOr lp "history") Status.IN_PROGRESS n).1
        ∈ ((insertAttempt db cid uid (jsStrOr lp "history") Status.IN_PROGRESS n).2).rows :=
      List.mem_append_right _ (List.mem_singleton.mpr rfl)
    have hno := List.find?_eq_none.mp hx _ hmem
    exact hno (by simp [insertAttempt])
  | some x =>
    have hxid : x.attempt_id = db.nextId := by
      unfold getAttemptById at hx
      have := List.find?_some hx
      simpa using this
    refine ⟨x, (insertAttempt db cid uid (jsStrOr lp "history") Status.IN_PROGRESS n).1,
      by rw [he, hx], hxid, ?_, ?_, rfl, rfl⟩
    · rw [he]
      simp [insertAttempt]
    · rw [he]
      show (db.rows ++ [(insertAttempt db cid uid (jsStrOr lp "history")
            Status.IN_PROGRESS n).1]).find?
          (fun a => a.case_id == cid && a.user_id == uid) = _
      rw [List.find?_append]
      unfold getAttemptByCaseForUser at hfind
      rw [hfind]
      simp [List.find?, insertAttempt]

/-- C3: calling `ensure` twice in immediate succession for the same
(caseId, userId) pair returns an attempt with the same attempt id both
times, and the second call creates no new row (the row count is
unchanged). -/
theorem ensure_twice_same_id
    (db : DB) (cid userId : Nat) (lp1 lp2 : Option String) (n1 n2 : Nat)
    (hcid : cid ≠ 0) :
    ∃ i,
      (ensure db (some cid) userId lp1 n1).1.attemptIdOf = some i ∧
      (ensure (ensure db (some cid) userId lp1 n1).2
        (some cid) userId lp2 n2).1.attemptIdOf = some i ∧
      (ensure (ensure db (some cid) userId lp1 n1).2
        (some cid) userId lp2 n2).2.rows.length
        = (ensure db (some cid) userId lp1 n1).2.rows.length := by
  have hc0 : (cid == 0) = false := beq_eq_false_iff_ne.mpr hcid
  cases hfind : getAttemptByCaseForUser db cid userId with
  | some m =>
    by_cases hm : m.status = Status.COMPLETED
    · have he1 : ensure db (some cid) userId lp1 n1 = (EnsureResult.caseCompleted m, db) := by
        simp [ensure, hc0, hfind, hm]
      have he2 : ensure db (some cid) userId lp2 n2 = (EnsureResult.caseCompleted m, db) := by
        simp [ensure, hc0, hfind, hm]
      have h2' : (ensure db (some cid) userId lp1 n1).2 = db := by rw [he1]
      refine ⟨m.attempt_id, by rw [he1]; rfl, ?_, ?_⟩
      · rw [h2', he2]
        rfl
      · rw [h2', he2]
    · obtain ⟨r1, m2, ha1, ha2, ha3, ha4, ha5, ha6⟩ :=
        ensure_found_inprogress db cid userId m lp1 n1 hc0 hfind hm
      have hm2 : ¬ m2.status = Status.COMPLETED := by rw [ha6]; exact hm
      obtain ⟨r2, m3, hb1, hb2, hb3, hb4, hb5, hb6⟩ :=
        ensure_found_inprogress _ cid userId m2 lp2 n2 hc0 ha4 hm2
      refine ⟨m.attempt_id, ?_, ?_, hb3⟩
      · rw [ha1]
        simp [EnsureResult.attemptIdOf, ha2]
      · rw [hb1]
        simp [EnsureResult.attemptIdOf, hb2, ha5]
  | none =>
    obtain ⟨r1, m2, ha1, ha2, ha3, ha4, ha5, ha6⟩ :=
      ensure_not_found db cid userId lp1 n1 hc0 hfind
    have hm2 : ¬ m2.status = Status.COMPLETED := by
      rw [ha6]
      simp
    obtain ⟨r2, m3, hb1, hb2, hb3, hb4, hb5, hb6⟩ :=
      ensure_found_inprogress _ cid userId m2 lp2 n2 hc0 ha4 hm2
    refine ⟨db.nextId, ?_, ?_, hb3⟩
    · rw [ha1]
      simp [EnsureResult.attemptIdOf, ha2]
    · rw [hb1]
      simp [EnsureResult.attemptIdOf, hb2, ha5]

/-- C3 witness: two successive `ensure` calls of user 43 on the fresh case
9 of the sample database both return attempt id 3, and the second call
does not grow the table. -/
theorem ensure_twice_same_id_witness :
    (9 : Nat) ≠ 0 ∧
    ∃ i,
      (ensure sampleDB (some 9) 43 none 10).1.attemptIdOf = some i ∧
      (ensure (ensure sampleDB (some 9) 43 none 10).2
        (some 9) 43 (some "exam") 12).1.attemptIdOf = some i ∧
      (ensure (ensure sampleDB (some 9) 43 none 10).2
        (some 9) 43 (some "exam") 12).2.rows.length
        = (ensure sampleDB (some 9) 43 none 10).2.rows.length :=
  ⟨by decide, ensure_twice_same_id sampleDB 9 43 none (some "exam") 10 12 (by decide)⟩


lemma flatMap_singleton {α β : Type} (l : List α) (f : α → List β) (g : α → β)
    (h : ∀ a ∈ l, f a = [g a]) : l.flatMap f = l.map g := by
  induction l with
  | nil => rfl
  | cons x xs ih =>
    rw [List.flatMap_cons, List.map_cons, h x (List.mem_cons_self x xs),
      ih (fun a ha => h a (List.mem_cons_of_mem x ha))]
    rfl

lemma progressBefore_total (r s : ProgressRow) :
    (progressBefore r s || progressBefore s r) = true := by
  unfold progressBefore
  rcases hr : r.status <;> rcases hs : s.status <;> simp <;> omega

lemma progressBefore_trans (r s t : ProgressRow)
    (h1 : progressBefore r s = true) (h2 : progressBefore s t = true) :
    progressBefore r t = true := by
  unfold progressBefore at h1 h2 ⊢
  rcases hr : r.status <;> rcases hs : s.status <;> rcases ht : t.status <;>
    simp [hr, hs, ht] at h1 h2 ⊢ <;> omega

lemma progressBefore_imp (r s : ProgressRow) (h : progressBefore r s = true) :
    (s.status = Status.IN_PROGRESS → r.status = Status.IN_PROGRESS) ∧
    (r.status = s.status → s.updated_at ≤ r.updated_at) := by
  unfold progressBefore at h
  constructor
  · intro hs
    by_contra hr
    rw [hs] at h
    simp [hr] at h
  · intro hrs
    rw [hrs] at h
    simpa using h

/-- C8: `listForUser` returns the full set of the user's attempts, each
joined to its case name (assuming each attempt's `case_id` resolves to
exactly one row of `cases`), with every IN_PROGRESS attempt listed before
every non-IN_PROGRESS attempt and, within attempts of equal status,
ordered by `updated_at` descending. -/
theorem listForUser_complete_and_ordered
    (db : DB) (cs : List CaseRow) (userId : Nat) (getCase : Nat → CaseRow)
    (hc : ∀ a ∈ db.rows,
      cs.filter (fun c => c.case_id == a.case_id) = [getCase a.case_id]) :
    (listForUser db cs userId).Perm
      ((db.rows.filter (fun a => a.user_id == userId)).map
        (fun a => mkProgressRow a (getCase a.case_id))) ∧
    (listForUser db cs userId).Pairwise (fun r s =>
      (s.status = Status.IN_PROGRESS → r.status = Status.IN_PROGRESS) ∧
      (r.status = s.status → s.updated_at ≤ r.updated_at)) := by
  constructor
  · have hj : joinRows db cs userId
        = (db.rows.filter (fun a => a.user_id == userId)).map
            (fun a => mkProgressRow a (getCase a.case_id)) := by
      unfold joinRows
      apply flatMap_singleton
      intro a ha
      rw [hc a (List.mem_of_mem_filter ha)]
      rfl
    show ((joinRows db cs userId).mergeSort progressBefore).Perm _
    rw [hj]
    exact List.mergeSort_perm _ _
  · have hp := List.sorted_mergeSort
      (fun a b c hab hbc => progressBefore_trans a b c hab hbc)
      (fun a b => progressBefore_total a b)
      (joinRows db cs userId)
    exact hp.imp (fun hab => progressBefore_imp _ _ hab)

/-- The `cases` table for the sample database: case 7 and case 8. -/
def sampleCases : List CaseRow :=
  [{ case_id := 7, case_name := "Case Seven" }, { case_id := 8, case_name := "Case Eight" }]

/-- Resolves the sample case ids to their `cases` rows. -/
def sampleGetCase (cid : Nat) : CaseRow :=
  if cid == 7 then { case_id := 7, case_name := "Case Seven" }
  else { case_id := 8, case_name := "Case Eight" }

/-- C8 witness: the listing theorem applied to the sample database and its
two cases for user 42: the listing is a permutation of the user's two
joined attempts and is IN_PROGRESS-first, `updated_at`-descending. -/
theorem listForUser_complete_and_ordered_witness :
    (∀ a ∈ sampleDB.rows,
      sampleCases.filter (fun c => c.case_id == a.case_id) = [sampleGetCase a.case_id]) ∧
    (listForUser sampleDB sampleCases 42).Perm
      ((sampleDB.rows.filter (fun a => a.user_id == 42)).map
        (fun a => mkProgressRow a (sampleGetCase a.case_id))) ∧
    (listForUser sampleDB sampleCases 42).Pairwise (fun r s =>
      (s.status = Status.IN_PROGRESS → r.status = Status.IN_PROGRESS) ∧
      (r.status = s.status → s.updated_at ≤ r.updated_at)) :=
  ⟨by decide,
    listForUser_complete_and_ordered sampleDB sampleCases 42 sampleGetCase (by decide)⟩


end OptoCase
